import Mathlib

/-!
Verification of the misinformation detection-and-decision pipeline of the
Discord-fact-check repository, shallowly embedded in Lean 4.

Conventions of the embedding:
* timestamps are integers (seconds); the source compares datetime values
  with timedelta windows, which we model as integer differences;
* Python dictionaries keyed by phrase become association lists whose lookup
  returns the first matching entry;
* float scores (confidence) and integer percentages are modelled as
  rationals, since the source only compares and copies them;
* provider network calls are modelled by their observable outcome: either
  the call raises (timeout or transport error) or it returns raw text;
* Python dict.get with a default becomes Option.getD at the use site.
-/

/-- Configuration constant from config.py: reply only when truthiness is
below this percentage. -/
def AUTO_DETECT_TRUTHINESS_THRESHOLD : ℚ := 50

/-- Configuration constant from config.py: reply only when AI confidence is
at least this value (the source suppresses when confidence is strictly
below it). The source literal is 0.6, written here as the rational 3/5. -/
def AUTO_DETECT_CONFIDENCE_THRESHOLD : ℚ := mkRat 3 5

/-- Configuration constant from config.py: minimum message length checked. -/
def AUTO_DETECT_MIN_MESSAGE_LENGTH : Nat := 20

/-- Configuration constant from config.py: maximum auto-checks per user per
five minutes. -/
def AUTO_DETECT_RATE_LIMIT : Nat := 2

/-- The normalized analysis payload as produced by the provider JSON schema
in ai_client.py and consumed by bot.py. Fields are optional because the
source reads them with dict.get and a default. -/
structure Analysis where
  truthiness_percentage : Option ℚ
  confidence : Option ℚ
  reasoning : Option String
  urgency_level : Option String
  spread_risk : Option String
deriving Repr, DecidableEq

/-- An incoming chat message, restricted to the fields the pipeline reads. -/
structure Message where
  content : String
  authorId : Nat
deriving Repr, DecidableEq

/-- One entry of the per-community claims dictionary persisted by
log_misinformation_event: an occurrence count and a bounded example list. -/
structure PatternEntry where
  count : Nat
  examples : List String
deriving Repr, DecidableEq

/-- The claims dictionary of a community partition, as an association list
from key phrase to its entry (first match wins, mirroring dict lookup). -/
abbrev Claims := List (String × PatternEntry)

/-- The record returned by check_misinformation_patterns in bot.py. -/
structure PatternInfo where
  is_recurring : Bool
  frequency : Nat
  similar_claims : List String
  key_phrases : List String
deriving Repr, DecidableEq

/-- One persisted decision event, as built in log_misinformation_event. -/
structure Event where
  timestamp : Int
  user_id : String
  content_hash : Int
  truthiness_score : ℚ
  urgency : String
  key_phrases : List String
deriving Repr, DecidableEq

/-! ## Python string primitives

The embedding works on the character lists underlying Lean strings, which
matches Python semantics (strings are character sequences, len and slicing
count characters) and keeps every operation kernel-computable. -/

/-- Python len: the number of characters. -/
def pyLen (s : String) : Nat := s.data.length

/-- Python str.lower (character-wise lowercasing). -/
def strToLower (s : String) : String := String.mk (s.data.map Char.toLower)

/-- Python str.strip: remove whitespace from both ends. -/
def pyStrip (s : String) : String :=
  String.mk (((s.data.dropWhile Char.isWhitespace).reverse.dropWhile
    Char.isWhitespace).reverse)

/-- Python slice s[:n] (first n characters). -/
def pyTake (s : String) (n : Nat) : String := String.mk (s.data.take n)

/-- Python slice s[n:] (drop the first n characters). -/
def pyDrop (s : String) (n : Nat) : String := String.mk (s.data.drop n)

/-- Python slice s[:-n] (drop the last n characters). -/
def pyDropRight (s : String) (n : Nat) : String :=
  String.mk (s.data.take (s.data.length - n))

/-- Python str.startswith. -/
def pyStartsWith (s pre : String) : Bool := pre.data.isPrefixOf s.data

/-- Python str.endswith. -/
def pyEndsWith (s suf : String) : Bool :=
  suf.data.reverse.isPrefixOf s.data.reverse

/-- Helper for Python str.split with no separator: accumulate the current
token (reversed) and emit it at each whitespace run, dropping empties. -/
def splitWsAux : List Char → List Char → List String
  | [], acc => if acc.isEmpty then [] else [String.mk acc.reverse]
  | c :: cs, acc =>
    if c.isWhitespace then
      (if acc.isEmpty then [] else [String.mk acc.reverse]) ++ splitWsAux cs []
    else splitWsAux cs (c :: acc)

/-- Python str.split with no separator: split on whitespace runs, no empty
tokens. -/
def pySplitWs (s : String) : List String := splitWsAux s.data []

/-! ## String helpers shared by the handler (bot.py) -/

/-- Auxiliary scan: does the character list contain "http" as a contiguous
sublist? Mirrors the Python substring test on the lowercased content. -/
def hasHttpAux : List Char → Bool
  | [] => false
  | c :: cs => ("http".data).isPrefixOf (c :: cs) || hasHttpAux cs

/-- The Python test from bot.py line 166: the lowercased content contains
the substring "http". -/
def hasHttp (s : String) : Bool :=
  hasHttpAux (strToLower s).data

/-- The question-word list from bot.py line 170. -/
def question_words : List String :=
  ["what", "how", "when", "where", "why", "who", "which", "can", "could",
   "would", "should", "is", "are", "do", "does", "did"]

/-- The first whitespace-separated word of the stripped content, lowercased;
mirrors content.strip().split()[0].lower() (the source only evaluates this
on non-empty stripped content, where the head exists). -/
def firstWord (s : String) : String :=
  strToLower ((pySplitWs (pyStrip s)).headD "")

/-- The question test from bot.py line 172: first word is a question word,
or the stripped content ends with a question mark. -/
def isQuestion (s : String) : Bool :=
  question_words.contains (firstWord s) || pyEndsWith (pyStrip s) "?"

/-- The stop-word set from extract_key_phrases in bot.py. -/
def stop_words : List String :=
  ["the", "a", "an", "and", "or", "but", "in", "on", "at", "to", "for",
   "of", "with", "by", "is", "are", "was", "were"]

/-- The bigram and trigram construction of extract_key_phrases: for each
index, append the bigram when one successor exists and the trigram when two
successors exist, in that order. -/
def mkPhrases (ks : List String) : List String :=
  (List.range ks.length).foldl (fun acc i =>
    let acc2 := if i < ks.length - 1 then
        acc ++ [ks.getD i "" ++ " " ++ ks.getD (i+1) ""] else acc
    if i < ks.length - 2 then
        acc2 ++ [ks.getD i "" ++ " " ++ ks.getD (i+1) "" ++ " " ++ ks.getD (i+2) ""]
    else acc2) []

/-- extract_key_phrases from bot.py: lowercase, split on whitespace, drop
stop words and tokens of length at most 3, form bigrams and trigrams, keep
the first 5 phrases. -/
def extract_key_phrases (content : String) : List String :=
  let words := pySplitWs (strToLower content)
  let keywords := words.filter (fun w => !stop_words.contains w && decide (pyLen w > 3))
  (mkPhrases keywords).take 5

/-! ## Rate limiting (bot.py check_rate_limit and the auto-check limiter) -/

/-- The shared sliding-window shape of both limiters in bot.py: filter the
stored timestamps to those strictly newer than now minus the window; if at
least maxEvents remain, reject and leave the stored list unchanged (the
source returns without writing the filtered list back); otherwise store the
filtered list with now appended and accept. -/
def rateCheck (window : Int) (maxEvents : Nat) (now : Int) (l : List Int) :
    Bool × List Int :=
  let filtered := l.filter (fun ts => decide (now - ts < window))
  if maxEvents ≤ filtered.length then (false, l)
  else (true, filtered ++ [now])

/-- check_rate_limit from bot.py: one-minute window, five events. -/
def check_rate_limit (now : Int) (l : List Int) : Bool × List Int :=
  rateCheck 60 5 now l

/-- Run a sequence of rate-limit checks at the given call times, returning
the list of results and the final stored timestamps. -/
def runCalls : List Int → List Int → List Bool × List Int
  | [], l => ([], l)
  | t :: ts, l =>
    let r := check_rate_limit t l
    let rest := runCalls ts r.2
    (r.1 :: rest.1, rest.2)

/-! ## Pattern store (bot.py check_misinformation_patterns and the claims
update loop of log_misinformation_event) -/

/-- Dictionary lookup on the claims association list (first match wins,
mirroring the unique-key Python dict). -/
def findEntry : Claims → String → Option PatternEntry
  | [], _ => none
  | (k, e) :: rest, ph => if k == ph then some e else findEntry rest ph

/-- The stored count of a phrase, 0 when the phrase has no entry. -/
def countOf (cs : Claims) (ph : String) : Nat :=
  match findEntry cs ph with
  | some e => e.count
  | none => 0

/-- The stored example list of a phrase, empty when the phrase has no entry. -/
def examplesOf (cs : Claims) (ph : String) : List String :=
  match findEntry cs ph with
  | some e => e.examples
  | none => []

/-- The frequency accumulation loop of check_misinformation_patterns: sum
the counts of every phrase that already has an entry in the claims
dictionary, in phrase order. -/
def patternFrequency (cs : Claims) (phrases : List String) : Nat :=
  phrases.foldl (fun acc ph =>
    match findEntry cs ph with
    | some e => acc + e.count
    | none => acc) 0

/-- The similar-claims accumulation loop: for each matched phrase extend
with the first two stored examples. -/
def similarClaims (cs : Claims) (phrases : List String) : List String :=
  phrases.foldl (fun acc ph =>
    match findEntry cs ph with
    | some e => acc ++ e.examples.take 2
    | none => acc) []

/-- check_misinformation_patterns from bot.py: extract the key phrases of
the content, sum the counts of matched phrases, and report recurrence when
the aggregate frequency exceeds 2. -/
def check_misinformation_patterns (cs : Claims) (content : String) : PatternInfo :=
  let key_phrases := extract_key_phrases content
  let frequency := patternFrequency cs key_phrases
  { is_recurring := decide (frequency > 2)
    frequency := frequency
    similar_claims := similarClaims cs key_phrases
    key_phrases := key_phrases }

/-- The per-phrase upsert of log_misinformation_event on the claims dict:
create a zero entry when the phrase is absent, then increment its count and
append the truncated example when fewer than 5 examples are stored. -/
def upsertPhrase : Claims → String → String → Claims
  | [], ph, snippet => [(ph, { count := 1, examples := [snippet] })]
  | (k, e) :: rest, ph, snippet =>
    if k == ph then
      (k, { count := e.count + 1
            examples := if e.examples.length < 5
                        then e.examples ++ [snippet]
                        else e.examples }) :: rest
    else (k, e) :: upsertPhrase rest ph snippet

/-! ## Event log (bot.py log_misinformation_event) -/

/-- The bounded append of log_misinformation_event: append the event, then
keep only the last 100 entries when the length exceeds 100. -/
def appendEvent (events : List Event) (e : Event) : List Event :=
  let es := events ++ [e]
  if es.length > 100 then es.drop (es.length - 100) else es

/-- Append a whole sequence of events one at a time. -/
def appendAll (events : List Event) (new : List Event) : List Event :=
  new.foldl appendEvent events

/-- The event record built in log_misinformation_event. The Python hash
function on strings is process-seeded, so it enters the model as an
explicit parameter; the source stores hash(content) mod 10000 under
content_hash and the stringified raw author id under user_id. -/
def mkEvent (contentHash : String → Int) (now : Int) (msg : Message)
    (a : Analysis) (pinfo : PatternInfo) : Event :=
  { timestamp := now
    user_id := toString msg.authorId
    content_hash := (contentHash msg.content) % 10000
    truthiness_score := a.truthiness_percentage.getD 0
    urgency := a.urgency_level.getD "medium"
    key_phrases := pinfo.key_phrases }

/-- log_misinformation_event from bot.py, restricted to one community
partition: upsert every key phrase of the pattern info with the content
truncated to 100 characters, and append the event to the bounded log. -/
def log_misinformation_event (contentHash : String → Int) (now : Int)
    (msg : Message) (a : Analysis) (pinfo : PatternInfo)
    (cs : Claims) (events : List Event) : Claims × List Event :=
  let cs2 := pinfo.key_phrases.foldl
    (fun acc ph => upsertPhrase acc ph (pyTake msg.content 100)) cs
  (cs2, appendEvent events (mkEvent contentHash now msg a pinfo))

/-! ## The automatic detection handler (bot.py
handle_automatic_misinformation_check) -/

/-- The analysis the handler acts on: the community-context analysis when
the orchestrator returned one, otherwise the basic truthiness fallback. -/
def resolveAnalysis (primary fallback : Option Analysis) : Option Analysis :=
  match primary with
  | some a => some a
  | none => fallback

/-- Observable outcome of one run of the handler: whether a provider call
was made, whether an alert reply was sent, and the resulting per-user
auto-check timestamps, claims dictionary and event log. -/
structure CheckOutcome where
  providerCalled : Bool
  alerted : Bool
  limits : List Int
  claims : Claims
  events : List Event
deriving Repr, DecidableEq

/-- handle_automatic_misinformation_check from bot.py, for one user and one
community partition. The network effects (the provider analyses and the
Python string hash) enter as parameters; everything else follows the source
control flow: length gate, URL gate, question gate, five-minute sliding
window rate limit, threshold checks, then pattern query, reply and event
logging on the alert path only. -/
def handle_automatic_misinformation_check (contentHash : String → Int)
    (now : Int) (msg : Message) (primary fallback : Option Analysis)
    (limits : List Int) (cs : Claims) (events : List Event) : CheckOutcome :=
  if pyLen (pyStrip msg.content) < AUTO_DETECT_MIN_MESSAGE_LENGTH then
    ⟨false, false, limits, cs, events⟩
  else if hasHttp msg.content then
    ⟨false, false, limits, cs, events⟩
  else if isQuestion msg.content then
    ⟨false, false, limits, cs, events⟩
  else
    let filtered := limits.filter (fun ts => decide (now - ts < 300))
    if AUTO_DETECT_RATE_LIMIT ≤ filtered.length then
      ⟨false, false, limits, cs, events⟩
    else
      let limits2 := filtered ++ [now]
      match resolveAnalysis primary fallback with
      | none => ⟨true, false, limits2, cs, events⟩
      | some a =>
        if a.truthiness_percentage.getD 100 < AUTO_DETECT_TRUTHINESS_THRESHOLD then
          if a.confidence.getD 0 < AUTO_DETECT_CONFIDENCE_THRESHOLD then
            ⟨true, false, limits2, cs, events⟩
          else
            let pinfo := check_misinformation_patterns cs msg.content
            let r := log_misinformation_event contentHash now msg a pinfo cs events
            ⟨true, true, limits2, r.1, r.2⟩
        else ⟨true, false, limits2, cs, events⟩

/-! ## Provider orchestration (ai_client.py) -/

/-- Observable outcome of one provider call: the call raises an exception
(timeout, transport or SDK error) or it returns raw response text. -/
inductive CallOutcome where
  | raises : CallOutcome
  | returns : String → CallOutcome
deriving Repr, DecidableEq

/-- The AI client configuration of ai_client.py: each of the three
hard-coded providers is either unconfigured (its key is absent, the client
attribute is None) or configured with the outcome its call would produce
for the current request. -/
structure AIClient where
  primary : Option CallOutcome
  openai : Option CallOutcome
  gemini : Option CallOutcome
deriving Repr, DecidableEq

/-- The opening curly brace character, written by code point. -/
def lbrace : Char := Char.ofNat 123

/-- The closing curly brace character, written by code point. -/
def rbrace : Char := Char.ofNat 125

/-- Python str.find for a single character: first index, or -1. -/
def pyFind (s : String) (c : Char) : Int :=
  match s.data.findIdx? (fun x => x == c) with
  | some i => (i : Int)
  | none => -1

/-- Python str.rfind for a single character: last index, or -1. -/
def pyRfind (s : String) (c : Char) : Int :=
  match s.data.reverse.findIdx? (fun x => x == c) with
  | some i => ((pyLen s - 1 - i : Nat) : Int)
  | none => -1

/-- The Gemini response clean-up of _make_request_with_fallback: strip,
remove a leading markdown fence, remove a trailing fence, strip again, and
slice from the first opening brace to the last closing brace when both are
present in order. -/
def clean_gemini_response (text : String) : String :=
  let t0 := pyStrip text
  let t1 := if pyStartsWith t0 "```json" then pyDrop t0 7
            else if pyStartsWith t0 "```" then pyDrop t0 3
            else t0
  let t2 := if pyEndsWith t1 "```" then pyDropRight t1 3 else t1
  let t3 := pyStrip t2
  let s := pyFind t3 lbrace
  let e := pyRfind t3 rbrace
  if s != -1 && e != -1 && e > s then
    pyTake (pyDrop t3 s.toNat) (e.toNat + 1 - s.toNat)
  else t3

/-- _make_request_with_fallback from ai_client.py: try the PawanOsman
client, then OpenAI, then Gemini, in that order; an unconfigured provider
is skipped, a raising call falls through to the next provider, and the
first call that returns text ends the chain (Gemini text is cleaned
first). Returns None when no configured provider returns. -/
def make_request_with_fallback (c : AIClient) : Option String :=
  match c.primary with
  | some (.returns t) => some t
  | _ =>
    match c.openai with
    | some (.returns t) => some t
    | _ =>
      match c.gemini with
      | some (.returns t) => some (clean_gemini_response t)
      | _ => none

/-- Instrumented variant of the same chain that also records, in order, the
identifiers of the providers whose calls were invoked. -/
def fallbackTraced (c : AIClient) : Option String × List String :=
  match c.primary with
  | some (.returns t) => (some t, ["pawan"])
  | some .raises =>
    match c.openai with
    | some (.returns t) => (some t, ["pawan", "openai"])
    | some .raises =>
      match c.gemini with
      | some (.returns t) => (some (clean_gemini_response t), ["pawan", "openai", "gemini"])
      | some .raises => (none, ["pawan", "openai", "gemini"])
      | none => (none, ["pawan", "openai"])
    | none =>
      match c.gemini with
      | some (.returns t) => (some (clean_gemini_response t), ["pawan", "gemini"])
      | some .raises => (none, ["pawan", "gemini"])
      | none => (none, ["pawan"])
  | none =>
    match c.openai with
    | some (.returns t) => (some t, ["openai"])
    | some .raises =>
      match c.gemini with
      | some (.returns t) => (some (clean_gemini_response t), ["openai", "gemini"])
      | some .raises => (none, ["openai", "gemini"])
      | none => (none, ["openai"])
    | none =>
      match c.gemini with
      | some (.returns t) => (some (clean_gemini_response t), ["gemini"])
      | some .raises => (none, ["gemini"])
      | none => (none, [])

/-- analyze_with_community_context from ai_client.py (the same shape as
analyze_statement and rate_truthiness): obtain text from the fallback
chain; a falsy (empty or absent) response gives None, otherwise the text is
JSON-parsed, and a parse exception is caught and turned into None. The
parser (json.loads plus the schema) enters the model as a parameter. -/
def analyze_with_community_context (parse : String → Option Analysis)
    (c : AIClient) : Option Analysis :=
  match make_request_with_fallback c with
  | some t => if t = "" then none else parse t
  | none => none

/-! ## Context collector (bot.py get_conversation_context) -/

/-- One fetched prior message of the channel. -/
structure HistMsg where
  author : String
  content : String
  created_at : Int
deriving Repr, DecidableEq

/-- One entry of the returned conversation context. -/
structure CtxEntry where
  author : String
  content : String
  timestamp : Int
deriving Repr, DecidableEq

/-- The filter of get_conversation_context: non-empty content whose
stripped length exceeds 10. -/
def qualifies (m : HistMsg) : Bool :=
  m.content != "" && decide (pyLen (pyStrip m.content) > 10)

/-- The entry built for one qualifying message: content truncated to 200
characters. -/
def toCtxEntry (m : HistMsg) : CtxEntry :=
  { author := m.author, content := pyTake m.content 200, timestamp := m.created_at }

/-- get_conversation_context from bot.py: iterate the fetched history in
the order the channel history API yields it (most recent first), keep
qualifying messages truncated to 200 characters, and return the first 5
collected entries. -/
def get_conversation_context (history : List HistMsg) : List CtxEntry :=
  (((history.filter qualifies).map toCtxEntry).take 5)

/-! ## Theorems -/

/-- C10: a message whose content contains the substring http
(case-insensitive), or whose first word is a question word, or whose
stripped content ends with a question mark, is never auto-checked: no
provider call, no rate-limit timestamp consumed, no pattern entry recorded,
no event logged, no alert. -/
theorem skip_http_and_questions (contentHash : String → Int) (now : Int)
    (msg : Message) (primary fallback : Option Analysis)
    (limits : List Int) (cs : Claims) (events : List Event)
    (h : hasHttp msg.content = true ∨ isQuestion msg.content = true) :
    handle_automatic_misinformation_check contentHash now msg primary
      fallback limits cs events = ⟨false, false, limits, cs, events⟩ := by
  unfold handle_automatic_misinformation_check
  rcases h with h | h
  · simp [h]
  · simp [h]

theorem skip_http_and_questions_witness :
    (hasHttp "breaking news at http://example.com right now" = true
      ∨ isQuestion "breaking news at http://example.com right now" = true)
    ∧ handle_automatic_misinformation_check (fun _ => 0) 0
        { content := "breaking news at http://example.com right now", authorId := 1 }
        none none [] [] [] = ⟨false, false, [], [], []⟩ :=
  ⟨Or.inl (by decide),
   skip_http_and_questions (fun _ => 0) 0
     { content := "breaking news at http://example.com right now", authorId := 1 }
     none none [] [] [] (Or.inl (by decide))⟩

/-- C1: given that the pre-filters and the rate limit admit the message and
an analysis is available, the automatic-detection decision alerts exactly
when the analysis confidence reaches the confidence threshold and the
truthiness percentage is below the truthiness threshold. -/
theorem alert_iff_thresholds (contentHash : String → Int) (now : Int)
    (msg : Message) (primary fallback : Option Analysis) (a : Analysis)
    (limits : List Int) (cs : Claims) (events : List Event)
    (hlen : ¬ pyLen (pyStrip msg.content) < AUTO_DETECT_MIN_MESSAGE_LENGTH)
    (hhttp : hasHttp msg.content = false)
    (hq : isQuestion msg.content = false)
    (hrate : (limits.filter (fun ts => decide (now - ts < 300))).length
      < AUTO_DETECT_RATE_LIMIT)
    (han : resolveAnalysis primary fallback = some a) :
    (handle_automatic_misinformation_check contentHash now msg primary
        fallback limits cs events).alerted = true
      ↔ (AUTO_DETECT_CONFIDENCE_THRESHOLD ≤ a.confidence.getD 0
         ∧ a.truthiness_percentage.getD 100 < AUTO_DETECT_TRUTHINESS_THRESHOLD) := by
  have h2 : ¬ AUTO_DETECT_RATE_LIMIT ≤
      (limits.filter (fun ts => decide (now - ts < 300))).length :=
    Nat.not_le.mpr hrate
  unfold handle_automatic_misinformation_check
  rw [if_neg hlen, hhttp, hq, han]
  simp only [Bool.false_eq_true, if_false, if_neg h2]
  split_ifs with hT hC
  · exact iff_of_false (by simp) (fun hc => absurd hc.1 (not_le.mpr hC))
  · exact iff_of_true rfl ⟨not_lt.mp hC, hT⟩
  · exact iff_of_false (by simp) (fun hc => absurd hc.2 hT)

theorem alert_iff_thresholds_witness :
    (¬ pyLen (pyStrip "the moon landing was faked by actors")
        < AUTO_DETECT_MIN_MESSAGE_LENGTH)
    ∧ ((handle_automatic_misinformation_check (fun _ => 0) 0
          { content := "the moon landing was faked by actors", authorId := 42 }
          (some { truthiness_percentage := some 30, confidence := some (mkRat 4 10),
                  reasoning := none, urgency_level := some "high", spread_risk := none })
          none [] [] []).alerted = true
        ↔ (AUTO_DETECT_CONFIDENCE_THRESHOLD ≤ mkRat 4 10
           ∧ (30 : ℚ) < AUTO_DETECT_TRUTHINESS_THRESHOLD)) :=
  ⟨by decide,
   alert_iff_thresholds (fun _ => 0) 0
     { content := "the moon landing was faked by actors", authorId := 42 }
     (some { truthiness_percentage := some 30, confidence := some (mkRat 4 10),
             reasoning := none, urgency_level := some "high", spread_risk := none })
     none _ [] [] [] (by decide) (by decide) (by decide) (by decide) rfl⟩

/-- If every stored timestamp is strictly inside the window, the lazy purge
keeps the whole list. -/
theorem filter_fresh {now w : Int} {l : List Int}
    (h : ∀ x ∈ l, now - x < w) :
    l.filter (fun ts => decide (now - ts < w)) = l :=
  List.filter_eq_self.mpr (by intro a ha; simpa using h a ha)

/-- If every stored timestamp has aged out of the window, the lazy purge
empties the list. -/
theorem filter_stale {now w : Int} {l : List Int}
    (h : ∀ x ∈ l, ¬ now - x < w) :
    l.filter (fun ts => decide (now - ts < w)) = [] :=
  List.filter_eq_nil_iff.mpr (by intro a ha; simpa using h a ha)

/-- C4: the sliding-window check purges entries older than the window, then
rejects without appending when at least maxEvents remain and otherwise
appends now and accepts; consequently six nondecreasing calls inside one
minute from a fresh identity give five acceptances followed by a rejection,
and a call made a full window after the last of them is accepted again. -/
theorem rate_limit_window_behavior (a b c d e f now2 : Int)
    (hab : a ≤ b) (hbc : b ≤ c) (hcd : c ≤ d) (hde : d ≤ e) (hef : e ≤ f)
    (hw : f - a < 60) (hrec : f + 60 ≤ now2) :
    (∀ (w : Int) (k : Nat) (now : Int) (l : List Int),
      (k ≤ (l.filter (fun ts => decide (now - ts < w))).length →
        rateCheck w k now l = (false, l))
      ∧ ((l.filter (fun ts => decide (now - ts < w))).length < k →
        rateCheck w k now l
          = (true, l.filter (fun ts => decide (now - ts < w)) ++ [now])))
    ∧ (runCalls [a, b, c, d, e, f] []).1
        = [true, true, true, true, true, false]
    ∧ (check_rate_limit now2 (runCalls [a, b, c, d, e, f] []).2).1 = true := by
  refine ⟨fun w k now l => ⟨fun h => ?_, fun h => ?_⟩, ?_⟩
  · simp [rateCheck, h]
  · simp [rateCheck, Nat.not_le.mpr h]
  · have s1 : check_rate_limit a [] = (true, [a]) := by
      simp [check_rate_limit, rateCheck]
    have f2 : List.filter (fun ts => decide (b - ts < 60)) [a] = [a] :=
      filter_fresh (by intro x hx; simp at hx; omega)
    have s2 : check_rate_limit b [a] = (true, [a, b]) := by
      simp [check_rate_limit, rateCheck, f2]
    have f3 : List.filter (fun ts => decide (c - ts < 60)) [a, b] = [a, b] :=
      filter_fresh (by intro x hx; simp at hx; rcases hx with h | h <;> omega)
    have s3 : check_rate_limit c [a, b] = (true, [a, b, c]) := by
      simp [check_rate_limit, rateCheck, f3]
    have f4 : List.filter (fun ts => decide (d - ts < 60)) [a, b, c] = [a, b, c] :=
      filter_fresh (by intro x hx; simp at hx; rcases hx with h | h | h <;> omega)
    have s4 : check_rate_limit d [a, b, c] = (true, [a, b, c, d]) := by
      simp [check_rate_limit, rateCheck, f4]
    have f5 : List.filter (fun ts => decide (e - ts < 60)) [a, b, c, d]
        = [a, b, c, d] :=
      filter_fresh (by intro x hx; simp at hx; rcases hx with h | h | h | h <;> omega)
    have s5 : check_rate_limit e [a, b, c, d] = (true, [a, b, c, d, e]) := by
      simp [check_rate_limit, rateCheck, f5]
    have f6 : List.filter (fun ts => decide (f - ts < 60)) [a, b, c, d, e]
        = [a, b, c, d, e] :=
      filter_fresh (by intro x hx; simp at hx; rcases hx with h | h | h | h | h <;> omega)
    have s6 : check_rate_limit f [a, b, c, d, e] = (false, [a, b, c, d, e]) := by
      simp [check_rate_limit, rateCheck, f6]
    have frec : List.filter (fun ts => decide (now2 - ts < 60)) [a, b, c, d, e]
        = [] :=
      filter_stale (by intro x hx; simp at hx; rcases hx with h | h | h | h | h <;> omega)
    have srun : runCalls [a, b, c, d, e, f] []
        = ([true, true, true, true, true, false], [a, b, c, d, e]) := by
      simp [runCalls, s1, s2, s3, s4, s5, s6]
    refine ⟨by rw [srun], ?_⟩
    rw [srun]
    simp [check_rate_limit, rateCheck, frec]

theorem rate_limit_window_behavior_witness :
    ((0 : Int) ≤ 10 ∧ (10 : Int) ≤ 20 ∧ (20 : Int) ≤ 30 ∧ (30 : Int) ≤ 40
      ∧ (40 : Int) ≤ 50 ∧ (50 : Int) - 0 < 60 ∧ (50 : Int) + 60 ≤ 111)
    ∧ ((runCalls [0, 10, 20, 30, 40, 50] []).1
        = [true, true, true, true, true, false]
      ∧ (check_rate_limit 111 (runCalls [0, 10, 20, 30, 40, 50] []).2).1 = true) :=
  ⟨by decide,
   (rate_limit_window_behavior 0 10 20 30 40 50 111 (by decide) (by decide)
     (by decide) (by decide) (by decide) (by decide) (by decide)).2⟩

/-- The entry stored for the touched phrase after one upsert: a fresh
count-1 entry when absent, otherwise the old entry with the count bumped
and the example appended below the cap. -/
theorem findEntry_upsert (cs : Claims) (ph s : String) :
    findEntry (upsertPhrase cs ph s) ph
      = some (match findEntry cs ph with
              | none => { count := 1, examples := [s] }
              | some e =>
                { count := e.count + 1
                  examples := if e.examples.length < 5
                              then e.examples ++ [s] else e.examples }) := by
  induction cs with
  | nil => simp [upsertPhrase, findEntry]
  | cons head tail ih =>
    obtain ⟨k, e⟩ := head
    by_cases h : (k == ph) = true
    · simp [upsertPhrase, findEntry, h]
    · simp only [upsertPhrase, findEntry, h, if_false, Bool.false_eq_true, ih]

/-- The per-phrase upsert increments exactly the count of the touched
phrase. -/
theorem countOf_upsert (cs : Claims) (ph s : String) :
    countOf (upsertPhrase cs ph s) ph = countOf cs ph + 1 := by
  unfold countOf
  rw [findEntry_upsert]
  cases findEntry cs ph <;> simp

/-- The per-phrase upsert appends the truncated example exactly while the
cap of 5 is not reached, and never drops stored examples. -/
theorem examplesOf_upsert (cs : Claims) (ph s : String) :
    examplesOf (upsertPhrase cs ph s) ph
      = if (examplesOf cs ph).length < 5
        then examplesOf cs ph ++ [s] else examplesOf cs ph := by
  unfold examplesOf
  rw [findEntry_upsert]
  cases findEntry cs ph with
  | none => simp
  | some e => by_cases h5 : e.examples.length < 5 <;> simp [h5]

/-- The frequency loop computes the sum of the stored counts over the
phrase list (taking 0 for phrases without an entry). -/
theorem patternFrequency_eq_sum (cs : Claims) (phs : List String) :
    patternFrequency cs phs = (phs.map (fun ph => countOf cs ph)).sum := by
  have step : ∀ (phs : List String) (acc : Nat),
      phs.foldl (fun acc ph =>
        match findEntry cs ph with
        | some e => acc + e.count
        | none => acc) acc
        = acc + (phs.map (fun ph => countOf cs ph)).sum := by
    intro phs
    induction phs with
    | nil => intro acc; simp
    | cons head tail ih =>
      intro acc
      rw [List.foldl_cons, ih, List.map_cons, List.sum_cons]
      unfold countOf
      cases findEntry cs head with
      | none => simp
      | some e => rw [Nat.add_assoc]
  unfold patternFrequency
  simpa using step phs 0

/-- Record the same phrase n times through the upsert of
log_misinformation_event. -/
def recordNTimes (cs : Claims) (ph s : String) : Nat → Claims
  | 0 => cs
  | n + 1 => upsertPhrase (recordNTimes cs ph s n) ph s

/-- After n upserts of one phrase its stored count has grown by n. -/
theorem countOf_recordNTimes (cs : Claims) (ph s : String) (n : Nat) :
    countOf (recordNTimes cs ph s n) ph = countOf cs ph + n := by
  induction n with
  | zero => rfl
  | succ n ih =>
    show countOf (upsertPhrase (recordNTimes cs ph s n) ph s) ph = _
    rw [countOf_upsert, ih, Nat.add_assoc]

/-- C5: the aggregate frequency of a pattern query is the sum of the stored
counts of the extracted key phrases that already have an entry; recurrence
holds exactly when that aggregate exceeds 2, so it is false at frequency 2
and true at frequency 3; and recording one phrase n times with no
interfering phrase yields frequency n on the next query. -/
theorem pattern_frequency_and_recurrence :
    (∀ (cs : Claims) (content : String),
      (check_misinformation_patterns cs content).frequency
        = ((extract_key_phrases content).map (fun ph => countOf cs ph)).sum
      ∧ ((check_misinformation_patterns cs content).is_recurring = true
         ↔ (check_misinformation_patterns cs content).frequency > 2))
    ∧ (∀ (cs : Claims) (content : String),
        (check_misinformation_patterns cs content).frequency = 2 →
          (check_misinformation_patterns cs content).is_recurring = false)
    ∧ (∀ (cs : Claims) (content : String),
        (check_misinformation_patterns cs content).frequency = 3 →
          (check_misinformation_patterns cs content).is_recurring = true)
    ∧ (∀ (cs : Claims) (p s content : String) (n : Nat),
        extract_key_phrases content = [p] → findEntry cs p = none →
          (check_misinformation_patterns (recordNTimes cs p s n) content).frequency
            = n) := by
  have hfreq : ∀ (cs : Claims) (content : String),
      (check_misinformation_patterns cs content).frequency
        = ((extract_key_phrases content).map (fun ph => countOf cs ph)).sum :=
    fun cs content => patternFrequency_eq_sum cs (extract_key_phrases content)
  have hrec : ∀ (cs : Claims) (content : String),
      (check_misinformation_patterns cs content).is_recurring = true
        ↔ (check_misinformation_patterns cs content).frequency > 2 := by
    intro cs content
    simp [check_misinformation_patterns]
  refine ⟨fun cs content => ⟨hfreq cs content, hrec cs content⟩,
    fun cs content h2 => ?_, fun cs content h3 => ?_,
    fun cs p s content n hx hnone => ?_⟩
  · have := hrec cs content
    rw [h2] at this
    simp at this
    simpa using this
  · exact (hrec cs content).mpr (by omega)
  · rw [hfreq, hx]
    have hc0 : countOf cs p = 0 := by unfold countOf; rw [hnone]
    have := countOf_recordNTimes cs p s n
    rw [hc0] at this
    simpa using this

theorem pattern_frequency_and_recurrence_witness :
    (extract_key_phrases "vaccines cause" = ["vaccines cause"]
      ∧ findEntry [] "vaccines cause" = none)
    ∧ (check_misinformation_patterns
        (recordNTimes [] "vaccines cause" "vaccines cause" 3)
        "vaccines cause").frequency = 3 :=
  ⟨⟨by decide, rfl⟩,
   pattern_frequency_and_recurrence.2.2.2 [] "vaccines cause"
     "vaccines cause" "vaccines cause" 3 (by decide) rfl⟩

/-- One bounded append keeps the log at or below 100 entries. -/
theorem appendEvent_length_le (events : List Event) (e : Event)
    (h : events.length ≤ 100) : (appendEvent events e).length ≤ 100 := by
  unfold appendEvent
  dsimp only
  split_ifs with hl
  · simp only [List.length_drop]
    omega
  · simp only [List.length_append, List.length_cons, List.length_nil] at hl ⊢
    omega

/-- Folding bounded appends over a batch keeps exactly the most recent 100
of start-state plus batch. -/
theorem appendAll_eq (new : List Event) : ∀ (s : List Event),
    s.length ≤ 100 →
    appendAll s new = (s ++ new).drop (s.length + new.length - 100) := by
  induction new with
  | nil =>
    intro s hs
    have h0 : s.length + ([] : List Event).length - 100 = 0 := by
      simp only [List.length_nil]
      omega
    rw [h0, List.drop_zero, List.append_nil]
    rfl
  | cons e new ih =>
    intro s hs
    have hstep : appendAll s (e :: new) = appendAll (appendEvent s e) new := by
      simp [appendAll]
    rw [hstep, ih _ (appendEvent_length_le s e hs)]
    by_cases hfull : (s ++ [e]).length > 100
    · have hs100 : s.length = 100 := by
        simp only [List.length_append, List.length_cons, List.length_nil] at hfull
        omega
      have hae : appendEvent s e = (s ++ [e]).drop 1 := by
        unfold appendEvent
        rw [if_pos hfull]
        congr 1
        simp [hs100]
      rw [hae]
      have hlen : ((s ++ [e]).drop 1).length = 100 := by
        simp [hs100]
      rw [hlen]
      have hsplit : ((s ++ [e]).drop 1) ++ new = ((s ++ [e]) ++ new).drop 1 :=
        (List.drop_append_of_le_length (by simp)).symm
      rw [hsplit, List.drop_drop]
      have hidx : 1 + (100 + new.length - 100)
          = s.length + (e :: new).length - 100 := by
        simp only [List.length_cons]
        omega
      rw [hidx]
      congr 1
      simp
    · have hae : appendEvent s e = s ++ [e] := by
        unfold appendEvent
        rw [if_neg hfull]
      rw [hae]
      have hl1 : (s ++ [e]).length = s.length + 1 := by simp
      rw [hl1]
      have h1 : s.length + 1 + new.length - 100
          = s.length + (e :: new).length - 100 := by
        simp only [List.length_cons]
        omega
      rw [h1]
      congr 1
      simp

/-- C8: the per-community event log is a strict FIFO ring bounded at 100:
appending any batch to an empty log retains exactly the most recent 100
events (so a batch of 105 loses exactly its 5 oldest) and the log never
exceeds 100 entries. -/
theorem event_log_fifo_bound :
    ∀ (new : List Event),
      appendAll [] new = new.drop (new.length - 100)
      ∧ (appendAll [] new).length ≤ 100 := by
  intro new
  have h := appendAll_eq new [] (by simp)
  simp only [List.nil_append, List.length_nil, Nat.zero_add] at h
  refine ⟨h, ?_⟩
  rw [h]
  simp only [List.length_drop]
  omega

/-- C9 (amended): the logging path appends exactly the event built by
mkEvent, whose identity field user_id is the stringified raw author id and
whose hash field is an anonymized hash of the message content, not of the
identity. -/
theorem event_identity_fields (contentHash : String → Int) (now : Int)
    (msg : Message) (a : Analysis) (pinfo : PatternInfo) (cs : Claims)
    (events : List Event) :
    (log_misinformation_event contentHash now msg a pinfo cs events).2
      = appendEvent events (mkEvent contentHash now msg a pinfo)
    ∧ (mkEvent contentHash now msg a pinfo).user_id = toString msg.authorId
    ∧ (mkEvent contentHash now msg a pinfo).content_hash
        = (contentHash msg.content) % 10000 :=
  ⟨rfl, rfl, rfl⟩

/-- C9 counterexample: a concrete logged event whose user_id field is the
raw author identifier 1234567 in string form, contradicting that only an
anonymized identity hash is ever stored. -/
theorem event_stores_raw_user_id_cex :
    (log_misinformation_event (fun _ => 7) 5
      { content := "drinking bleach cures covid completely", authorId := 1234567 }
      { truthiness_percentage := some 10, confidence := some 1, reasoning := none,
        urgency_level := some "high", spread_risk := some "high" }
      { is_recurring := false, frequency := 0, similar_claims := [],
        key_phrases := ["drinking bleach"] }
      [] []).2
      = [{ timestamp := 5, user_id := "1234567", content_hash := 7,
           truthiness_score := 10, urgency := "high",
           key_phrases := ["drinking bleach"] }] := by decide

/-- Concrete alerting message used to exercise the pattern-update path. -/
def c6Msg : Message :=
  { content := "the earth is flat and nasa lies daily", authorId := 9 }

/-- Concrete alerting analysis: low truthiness, full confidence. -/
def c6A : Analysis :=
  { truthiness_percentage := some 20, confidence := some 1, reasoning := none,
    urgency_level := some "high", spread_risk := some "high" }

/-- C6 (amended): the pattern store is read and written only on the alert
path. When the thresholds fire, the handler upserts every extracted key
phrase (incrementing its count and appending the 100-character example
while the cap of 5 is not reached — the stored entries carry no lastSeen
field) and appends the decision event; on any analyzed message that does
not alert, the claims dictionary and the event log are left untouched. -/
theorem pattern_update_only_on_alert (contentHash : String → Int) (now : Int)
    (msg : Message) (primary fallback : Option Analysis) (a : Analysis)
    (limits : List Int) (cs : Claims) (events : List Event)
    (hlen : ¬ pyLen (pyStrip msg.content) < AUTO_DETECT_MIN_MESSAGE_LENGTH)
    (hhttp : hasHttp msg.content = false)
    (hq : isQuestion msg.content = false)
    (hrate : (limits.filter (fun ts => decide (now - ts < 300))).length
      < AUTO_DETECT_RATE_LIMIT)
    (han : resolveAnalysis primary fallback = some a) :
    ((a.truthiness_percentage.getD 100 < AUTO_DETECT_TRUTHINESS_THRESHOLD
        ∧ AUTO_DETECT_CONFIDENCE_THRESHOLD ≤ a.confidence.getD 0) →
      (handle_automatic_misinformation_check contentHash now msg primary
          fallback limits cs events).claims
        = (extract_key_phrases msg.content).foldl
            (fun acc ph => upsertPhrase acc ph (pyTake msg.content 100)) cs
      ∧ (handle_automatic_misinformation_check contentHash now msg primary
          fallback limits cs events).events
        = appendEvent events (mkEvent contentHash now msg a
            (check_misinformation_patterns cs msg.content))
      ∧ (handle_automatic_misinformation_check contentHash now msg primary
          fallback limits cs events).alerted = true)
    ∧ (¬ (a.truthiness_percentage.getD 100 < AUTO_DETECT_TRUTHINESS_THRESHOLD
        ∧ AUTO_DETECT_CONFIDENCE_THRESHOLD ≤ a.confidence.getD 0) →
      (handle_automatic_misinformation_check contentHash now msg primary
          fallback limits cs events).claims = cs
      ∧ (handle_automatic_misinformation_check contentHash now msg primary
          fallback limits cs events).events = events
      ∧ (handle_automatic_misinformation_check contentHash now msg primary
          fallback limits cs events).alerted = false)
    ∧ (∀ (cs2 : Claims) (ph s2 : String),
        countOf (upsertPhrase cs2 ph s2) ph = countOf cs2 ph + 1
        ∧ examplesOf (upsertPhrase cs2 ph s2) ph
            = if (examplesOf cs2 ph).length < 5
              then examplesOf cs2 ph ++ [s2] else examplesOf cs2 ph) := by
  have h2 : ¬ AUTO_DETECT_RATE_LIMIT ≤
      (limits.filter (fun ts => decide (now - ts < 300))).length :=
    Nat.not_le.mpr hrate
  refine ⟨fun hcond => ?_, fun hncond => ?_,
    fun cs2 ph s2 => ⟨countOf_upsert cs2 ph s2, examplesOf_upsert cs2 ph s2⟩⟩
  · unfold handle_automatic_misinformation_check
    rw [if_neg hlen, hhttp, hq, han]
    simp only [Bool.false_eq_true, if_false, if_neg h2]
    rw [if_pos hcond.1, if_neg (not_lt.mpr hcond.2)]
    exact ⟨rfl, rfl, rfl⟩
  · unfold handle_automatic_misinformation_check
    rw [if_neg hlen, hhttp, hq, han]
    simp only [Bool.false_eq_true, if_false, if_neg h2]
    by_cases hT : a.truthiness_percentage.getD 100 < AUTO_DETECT_TRUTHINESS_THRESHOLD
    · have hC : a.confidence.getD 0 < AUTO_DETECT_CONFIDENCE_THRESHOLD := by
        rcases not_and_or.mp hncond with h | h
        · exact absurd hT h
        · exact not_le.mp h
      rw [if_pos hT, if_pos hC]
      exact ⟨rfl, rfl, rfl⟩
    · rw [if_neg hT]
      exact ⟨rfl, rfl, rfl⟩

theorem pattern_update_only_on_alert_witness :
    (c6A.truthiness_percentage.getD 100 < AUTO_DETECT_TRUTHINESS_THRESHOLD
      ∧ AUTO_DETECT_CONFIDENCE_THRESHOLD ≤ c6A.confidence.getD 0)
    ∧ ((handle_automatic_misinformation_check (fun _ => 0) 0 c6Msg
          (some c6A) none [] [] []).claims
        = (extract_key_phrases c6Msg.content).foldl
            (fun acc ph => upsertPhrase acc ph (pyTake c6Msg.content 100)) []
      ∧ (handle_automatic_misinformation_check (fun _ => 0) 0 c6Msg
          (some c6A) none [] [] []).events
        = appendEvent [] (mkEvent (fun _ => 0) 0 c6Msg c6A
            (check_misinformation_patterns [] c6Msg.content))
      ∧ (handle_automatic_misinformation_check (fun _ => 0) 0 c6Msg
          (some c6A) none [] [] []).alerted = true) :=
  ⟨⟨by decide, by decide⟩,
   (pattern_update_only_on_alert (fun _ => 0) 0 c6Msg (some c6A) none c6A
      [] [] [] (by decide) (by decide) (by decide) (by decide) rfl).1
     ⟨by decide, by decide⟩⟩

/-- C6 counterexample: a message that passes every gate, receives an
analysis from the orchestrator (providerCalled is true), yet leaves the
pattern store untouched because the thresholds do not fire — its extracted
key phrases exist and stay absent from the store, so the pattern store is
not queried and updated for every analyzed message. -/
theorem no_alert_no_pattern_update_cex :
    (handle_automatic_misinformation_check (fun _ => 0) 0
      { content := "crystals heal cancer overnight totally", authorId := 7 }
      (some { truthiness_percentage := some 80, confidence := some 1,
              reasoning := none, urgency_level := some "low", spread_risk := none })
      none [] [] [])
      = { providerCalled := true, alerted := false, limits := [0],
          claims := [], events := [] }
    ∧ extract_key_phrases "crystals heal cancer overnight totally" ≠ []
    ∧ findEntry []
        ((extract_key_phrases "crystals heal cancer overnight totally").headD "")
        = none := by decide

/-- A client whose first provider call returns text that will not parse,
while the second provider would return a parseable payload. -/
def c2Client : AIClient :=
  { primary := some (.returns "not json at all"),
    openai := some (.returns "goodpayload"),
    gemini := none }

/-- A parser standing in for json.loads plus the schema: it accepts exactly
the text goodpayload and rejects everything else. -/
def c2Parse : String → Option Analysis :=
  fun s => if s = "goodpayload"
    then some { truthiness_percentage := some 40, confidence := some 1,
                reasoning := none, urgency_level := none, spread_risk := none }
    else none

/-- C2 (amended): a provider is treated as failed — with fallback to the
next provider — only when its call raises (timeout or transport error).
When a call returns text, that text ends the chain: any later JSON-parse
failure is caught by the calling analysis method, which returns None
without invoking the remaining providers. When every configured provider
raises, the chain returns None. -/
theorem fallback_only_on_raised_calls :
    (∀ (c : AIClient) (parse : String → Option Analysis) (t : String),
      c.primary = some (.returns t) →
        analyze_with_community_context parse c
          = (if t = "" then none else parse t)
        ∧ (fallbackTraced c).2 = ["pawan"])
    ∧ (∀ (c : AIClient) (parse : String → Option Analysis),
        (c.primary = none ∨ c.primary = some .raises) →
        (c.openai = none ∨ c.openai = some .raises) →
        (c.gemini = none ∨ c.gemini = some .raises) →
        analyze_with_community_context parse c = none) := by
  constructor
  · intro c parse t hp
    rcases c with ⟨p, o, g⟩
    dsimp only at hp
    subst hp
    exact ⟨rfl, rfl⟩
  · intro c parse hp ho hg
    rcases c with ⟨p, o, g⟩
    dsimp only at hp ho hg
    rcases hp with hp | hp <;> rcases ho with ho | ho <;>
      rcases hg with hg | hg <;> subst hp <;> subst ho <;> subst hg <;> rfl

theorem fallback_only_on_raised_calls_witness :
    c2Client.primary = some (.returns "not json at all")
    ∧ (analyze_with_community_context c2Parse c2Client
        = (if ("not json at all" : String) = ""
           then none else c2Parse "not json at all")
      ∧ (fallbackTraced c2Client).2 = ["pawan"]) :=
  ⟨rfl, fallback_only_on_raised_calls.1 c2Client c2Parse "not json at all" rfl⟩

/-- C2 counterexample: the first provider returns unparseable text while
the second would return a parseable payload; the analysis reports failure
(None) even though the second provider was never invoked, so unparseable
text does not cause fallback to the next provider. -/
theorem parse_failure_no_fallback_cex :
    c2Parse "not json at all" = none
    ∧ c2Parse "goodpayload" ≠ none
    ∧ c2Client.openai = some (.returns "goodpayload")
    ∧ analyze_with_community_context c2Parse c2Client = none
    ∧ (fallbackTraced c2Client).2 = ["pawan"] := by decide

/-- A parser accepting exactly the text samepayload. -/
def c3Parse : String → Option Analysis :=
  fun s => if s = "samepayload"
    then some { truthiness_percentage := some 10, confidence := some 1,
                reasoning := none, urgency_level := none, spread_risk := none }
    else none

/-- First provider raises, second returns the payload. -/
def c3ClientA : AIClient :=
  { primary := some .raises,
    openai := some (.returns "samepayload"),
    gemini := some (.returns "unused text") }

/-- First and second providers raise, third returns the same payload. -/
def c3ClientB : AIClient :=
  { primary := some .raises,
    openai := some .raises,
    gemini := some (.returns "samepayload") }

/-- A client whose first provider call immediately returns text. -/
def c3ClientC : AIClient :=
  { primary := some (.returns "direct reply"),
    openai := some (.returns "other"),
    gemini := none }

/-- C3 (amended): providers are attempted in the fixed order pawan, openai,
gemini, each at most once with no retries; the first call that returns text
determines the returned result and later providers are never invoked; when
every configured provider raises, the orchestrator returns None. The
identifier of the provider used is only logged and is not part of the
returned result. -/
theorem provider_priority_single_attempt :
    (∀ c : AIClient, (fallbackTraced c).1 = make_request_with_fallback c)
    ∧ (∀ c : AIClient,
        (fallbackTraced c).2.Sublist ["pawan", "openai", "gemini"])
    ∧ (∀ (c : AIClient) (t : String), c.primary = some (.returns t) →
        fallbackTraced c = (some t, ["pawan"]))
    ∧ (∀ (c : AIClient) (t : String),
        (c.primary = none ∨ c.primary = some .raises) →
        c.openai = some (.returns t) →
        (fallbackTraced c).1 = some t
        ∧ "gemini" ∉ (fallbackTraced c).2)
    ∧ (∀ c : AIClient,
        (c.primary = none ∨ c.primary = some .raises) →
        (c.openai = none ∨ c.openai = some .raises) →
        (c.gemini = none ∨ c.gemini = some .raises) →
        make_request_with_fallback c = none) := by
  refine ⟨fun c => ?_, fun c => ?_, fun c t hp => ?_, fun c t hp ho => ?_,
    fun c hp ho hg => ?_⟩
  · rcases c with ⟨p, o, g⟩
    rcases p with _ | (_ | t1) <;> rcases o with _ | (_ | t2) <;>
      rcases g with _ | (_ | t3) <;> rfl
  · rcases c with ⟨p, o, g⟩
    rcases p with _ | (_ | t1) <;> rcases o with _ | (_ | t2) <;>
      rcases g with _ | (_ | t3) <;> (dsimp only [fallbackTraced]; decide)
  · rcases c with ⟨p, o, g⟩
    dsimp only at hp
    subst hp
    rfl
  · rcases c with ⟨p, o, g⟩
    dsimp only at hp ho
    subst ho
    rcases hp with hp | hp <;> subst hp <;>
      exact ⟨rfl, by dsimp only [fallbackTraced]; decide⟩
  · rcases c with ⟨p, o, g⟩
    dsimp only at hp ho hg
    rcases hp with hp | hp <;> rcases ho with ho | ho <;>
      rcases hg with hg | hg <;> subst hp <;> subst ho <;> subst hg <;> rfl

theorem provider_priority_single_attempt_witness :
    c3ClientC.primary = some (.returns "direct reply")
    ∧ fallbackTraced c3ClientC = (some "direct reply", ["pawan"]) :=
  ⟨rfl,
   provider_priority_single_attempt.2.2.1 c3ClientC "direct reply" rfl⟩

/-- C3 counterexample: two configurations in which different providers
(openai for the first, gemini for the second) supply the same payload give
exactly the same analysis result, and the result is not Unavailable; hence
the returned result carries no providerUsed identifier — the normalized
payload has no such field and the provider used is recoverable only from
the logs. -/
theorem result_reports_no_provider_cex :
    (fallbackTraced c3ClientA).2 = ["pawan", "openai"]
    ∧ (fallbackTraced c3ClientB).2 = ["pawan", "openai", "gemini"]
    ∧ analyze_with_community_context c3Parse c3ClientA
        = analyze_with_community_context c3Parse c3ClientB
    ∧ analyze_with_community_context c3Parse c3ClientA ≠ none := by decide

/-- C7 (amended): the context collector returns at most 5 entries; they are
the first 5 qualifying messages of the fetched history (each longer than
the minimum once stripped, truncated to 200 characters); and since the
history API yields messages most recent first, the returned entries are the
most recent qualifying messages in reverse chronological order (most recent
first, not oldest first). -/
theorem context_collector_bounded_recent (hist : List HistMsg)
    (hsorted : hist.Pairwise (fun m1 m2 => m2.created_at ≤ m1.created_at)) :
    (get_conversation_context hist).length ≤ 5
    ∧ get_conversation_context hist
        = ((hist.filter qualifies).take 5).map toCtxEntry
    ∧ (∀ e ∈ get_conversation_context hist, ∃ m,
        m ∈ hist ∧ qualifies m = true ∧ e = toCtxEntry m)
    ∧ (get_conversation_context hist).Pairwise
        (fun e1 e2 => e2.timestamp ≤ e1.timestamp) := by
  refine ⟨List.length_take_le 5 _, ?_, ?_, ?_⟩
  · unfold get_conversation_context
    rw [List.map_take]
  · intro e he
    unfold get_conversation_context at he
    have he2 : e ∈ (hist.filter qualifies).map toCtxEntry :=
      List.take_subset 5 _ he
    rcases List.mem_map.mp he2 with ⟨m, hm, rfl⟩
    exact ⟨m, (List.mem_filter.mp hm).1, (List.mem_filter.mp hm).2, rfl⟩
  · unfold get_conversation_context
    refine List.Pairwise.sublist (List.take_sublist 5 _) ?_
    rw [List.pairwise_map]
    exact List.Pairwise.sublist (List.filter_sublist _) hsorted

/-- Concrete fetched history, most recent first, with one non-qualifying
(too short) message. -/
def c7Hist : List HistMsg :=
  [{ author := "u3", content := "the newest qualifying message here", created_at := 3 },
   { author := "u2", content := "an older qualifying message here", created_at := 2 },
   { author := "u1", content := "short", created_at := 1 }]

theorem context_collector_bounded_recent_witness :
    c7Hist.Pairwise (fun m1 m2 => m2.created_at ≤ m1.created_at)
    ∧ ((get_conversation_context c7Hist).length ≤ 5
      ∧ get_conversation_context c7Hist
          = ((c7Hist.filter qualifies).take 5).map toCtxEntry
      ∧ (∀ e ∈ get_conversation_context c7Hist, ∃ m,
          m ∈ c7Hist ∧ qualifies m = true ∧ e = toCtxEntry m)
      ∧ (get_conversation_context c7Hist).Pairwise
          (fun e1 e2 => e2.timestamp ≤ e1.timestamp)) :=
  ⟨by decide, context_collector_bounded_recent c7Hist (by decide)⟩

/-- C7 counterexample: on a history fetched most recent first, the returned
context lists the newer entry before the older one, so the entries are not
in chronological (oldest first, most-recent-last) order. -/
theorem context_order_newest_first_cex :
    (get_conversation_context
      [{ author := "u2", content := "this later message is long enough",
         created_at := 2 },
       { author := "u1", content := "this earlier message is long enough",
         created_at := 1 }]).map (fun e => e.timestamp) = [2, 1]
    ∧ ¬ ((2 : Int) ≤ 1) := by decide
